import Mathlib

/-!
Verification development for the Technical Indicator Engine
(`python_scripts/TechnicalIndicators.py`).

Modelling conventions:
* pandas float Series are modelled over ℚ, extended with the IEEE special
  values that the code's arithmetic can produce: `PVal.nan` (NaN) and
  `PVal.inf b` (+∞ for `b = true`, −∞ for `b = false`).  Signed zero is not
  modelled: the source never produces a negative zero on the paths embedded
  here.  Decimal literals of the source (`0.7`, `0.95`, `2.0`, `3`) are
  modelled as exact rationals.
* Comparisons involving NaN are `false`, exactly as in IEEE/numpy.
* `Series.rolling(window=n).mean()` (default `min_periods = n`) is a trailing
  window of the last `n` positions including the current one; positions with
  an incomplete window are NaN.  All series the source rolls over (close,
  gain, loss, volume) are NaN-free — `Series.where` replaces the NaN of the
  first `diff` by 0 — so the rolling input is a plain `List ℚ`.
* `Series.ewm(span=s).mean()` (defaults `adjust=True`, `min_periods=0`,
  no NaN in the input) is the weighted mean
  `(Σ_{j≤i} w^j·x_{i-j}) / (Σ_{j≤i} w^j)` with `w = 1 − 2/(s+1)`; it is
  defined from the very first position.
-/

set_option maxRecDepth 100000

namespace StockTA

/-- IEEE-style value of one cell of a pandas float Series:
NaN, ±∞, or a finite value (modelled as an exact rational). -/
inductive PVal where
  | nan : PVal
  | inf (pos : Bool) : PVal
  | val (q : ℚ) : PVal
deriving DecidableEq, Repr

namespace PVal

/-- IEEE addition. -/
def add : PVal → PVal → PVal
  | nan, _ => nan
  | _, nan => nan
  | inf p, inf q => if p = q then inf p else nan
  | inf p, val _ => inf p
  | val _, inf p => inf p
  | val a, val b => val (a + b)

/-- IEEE negation. -/
def neg : PVal → PVal
  | nan => nan
  | inf p => inf (!p)
  | val a => val (-a)

/-- IEEE subtraction. -/
def sub (a b : PVal) : PVal := add a (neg b)

/-- IEEE multiplication (∞ · 0 = NaN). -/
def mul : PVal → PVal → PVal
  | nan, _ => nan
  | _, nan => nan
  | inf p, inf q => inf (p = q)
  | inf p, val b => if b = 0 then nan else inf (p = decide (0 < b))
  | val a, inf p => if a = 0 then nan else inf (p = decide (0 < a))
  | val a, val b => val (a * b)

/-- IEEE division.  Finite/0 is ±∞ by the sign of the numerator (the
denominator is a plain +0 here, signed zero being out of the model),
0/0 and ∞/∞ are NaN, finite/∞ is 0. -/
def div : PVal → PVal → PVal
  | nan, _ => nan
  | _, nan => nan
  | inf _, inf _ => nan
  | inf p, val b => if b = 0 then inf p else inf (p = decide (0 < b))
  | val _, inf _ => val 0
  | val a, val b =>
    if b = 0 then (if a = 0 then nan else inf (decide (0 < a))) else val (a / b)

/-- IEEE `<` : any comparison with NaN is false. -/
def lt : PVal → PVal → Bool
  | val a, val b => decide (a < b)
  | inf false, val _ => true
  | val _, inf true => true
  | inf false, inf true => true
  | _, _ => false

/-- IEEE `≤` : any comparison with NaN is false; ±∞ ≤ ±∞ of equal sign. -/
def le : PVal → PVal → Bool
  | val a, val b => decide (a ≤ b)
  | inf false, val _ => true
  | val _, inf true => true
  | inf false, inf _ => true
  | inf true, inf true => true
  | _, _ => false

/-- IEEE `>`. -/
def gt (a b : PVal) : Bool := lt b a

/-- IEEE `≥`. -/
def ge (a b : PVal) : Bool := le b a

/-- IEEE absolute value. -/
def abs : PVal → PVal
  | nan => nan
  | inf _ => inf true
  | val a => val |a|

/-- Is this a finite (defined) value? -/
def isVal : PVal → Bool
  | val _ => true
  | _ => false

end PVal

/-! ### Series helpers -/

/-- Element of a rational series at position `i` (0 out of range; only used
under an `i < length` guard). -/
def qAt (xs : List ℚ) (i : Nat) : ℚ := xs.getD i 0

/-- Element of a NaN-free pandas Series at position `i`: NaN out of range. -/
def pvalAt (xs : List ℚ) (i : Nat) : PVal :=
  if i < xs.length then .val (xs.getD i 0) else .nan

/-- `Series.shift(1)` at position `i`: the previous element, NaN at the
first position (and out of range). -/
def shiftAt (xs : List ℚ) (i : Nat) : PVal :=
  if 0 < i ∧ i < xs.length then .val (xs.getD (i - 1) 0) else .nan

/-- Sum of the trailing window of (up to) `n` elements ending at `i`. -/
def winSum (n : Nat) (xs : List ℚ) (i : Nat) : ℚ :=
  (((xs.take (i + 1)).drop (i + 1 - n)).sum)

/-- `Series.rolling(window=n).mean()` at position `i` of a NaN-free series:
NaN until the window is complete, then the trailing mean. -/
def rollingMeanF (n : Nat) (xs : List ℚ) (i : Nat) : PVal :=
  if i < xs.length ∧ n ≤ i + 1 then .val (winSum n xs i / n) else .nan

/-- `Series.ewm(span=span).mean()` at position `i` (pandas defaults
`adjust=True`, `min_periods=0`, NaN-free input). -/
def ewmA (span : Nat) (xs : List ℚ) (i : Nat) : ℚ :=
  let w : ℚ := 1 - 2 / (span + 1)
  (((List.range (i + 1)).map fun j => w ^ j * qAt xs (i - j)).sum) /
    (((List.range (i + 1)).map fun j => w ^ j).sum)

/-! ### Indicator Library (`TechnicalIndicatorCalculator`) -/

/-- `calculate_ma(period)`: `close.rolling(window=period).mean()`. -/
def maF (period : Nat) (closes : List ℚ) (i : Nat) : PVal :=
  rollingMeanF period closes i

/-- The gain series of `calculate_rsi`:
`delta.where(delta > 0, 0)` with `delta = close.diff()`.
`NaN > 0` is false, so the NaN of `diff` at position 0 becomes 0. -/
def gains (closes : List ℚ) : List ℚ :=
  (List.range closes.length).map fun i =>
    if i = 0 then 0
    else if qAt closes (i - 1) < qAt closes i then qAt closes i - qAt closes (i - 1) else 0

/-- The loss series of `calculate_rsi`:
`(-delta.where(delta < 0, 0))` — losses as positive magnitudes, 0 at
position 0 for the same reason as `gains`. -/
def losses (closes : List ℚ) : List ℚ :=
  (List.range closes.length).map fun i =>
    if i = 0 then 0
    else if qAt closes i < qAt closes (i - 1) then qAt closes (i - 1) - qAt closes i else 0

/-- `calculate_rsi(period=14)`:
`rs = gain/loss; rsi = 100 - 100/(1 + rs)` with IEEE semantics
(zero average loss with positive average gain gives `rs = +∞`, hence
`rsi = 100`; 0/0 gives NaN). -/
def rsiF (closes : List ℚ) (i : Nat) : PVal :=
  PVal.sub (.val 100)
    (PVal.div (.val 100)
      (PVal.add (.val 1)
        (PVal.div (rollingMeanF 14 (gains closes) i)
          (rollingMeanF 14 (losses closes) i))))

/-- `calculate_macd`: the DIFF line `ewm(span=12) − ewm(span=26)`
as a list aligned with the bar series. -/
def macdL (closes : List ℚ) : List ℚ :=
  (List.range closes.length).map fun i => ewmA 12 closes i - ewmA 26 closes i

/-- `calculate_macd`: the DEA/signal line `macd.ewm(span=9).mean()`. -/
def signalL (closes : List ℚ) : List ℚ :=
  (List.range (macdL closes).length).map fun i => ewmA 9 (macdL closes) i

/-- `calculate_macd`: `histogram = macd - signal_line` (element-wise). -/
def histL (closes : List ℚ) : List ℚ :=
  (List.range closes.length).map fun i => qAt (macdL closes) i - qAt (signalL closes) i

/-- The MACD DIFF Series cell at position `i`. -/
def macdP (closes : List ℚ) (i : Nat) : PVal := pvalAt (macdL closes) i

/-- The MACD signal Series cell at position `i`. -/
def signalP (closes : List ℚ) (i : Nat) : PVal := pvalAt (signalL closes) i

/-- The MACD histogram Series cell at position `i`. -/
def histP (closes : List ℚ) (i : Nat) : PVal := pvalAt (histL closes) i

/-! ### Bar Validator/Normalizer (`_prepare_dataframe`) -/

/-- One field of a raw K-line record: absent from the dict, present but not
coercible by `float()` (a `ValueError`/`TypeError` on conversion), or
coercible to a numeric value. -/
inductive Field where
  | absent : Field
  | bad : Field
  | num (q : ℚ) : Field
deriving DecidableEq, Repr

/-- Is the field present in the record (regardless of coercibility)? -/
def Field.present : Field → Bool
  | .absent => false
  | _ => true

/-- A raw K-line record (`{d, o, c, h, l, v, tu}`).  The timestamp `d` is
modelled as a totally ordered key (`Nat`); `dPresent` records whether the
`d` key exists at all (the required-field check inspects it). -/
structure RawItem where
  dPresent : Bool := true
  d : Nat
  o : Field
  c : Field
  h : Field
  l : Field
  v : Field
  tu : Field
deriving DecidableEq, Repr

/-- A normalized bar, the row appended by `_prepare_dataframe`:
`volume` is the input `v` × 10000 (converted to 手), `turnover` the input
`tu` (0 when absent) × 100000000 (converted to 元). -/
structure Bar where
  date : Nat
  open' : ℚ
  close : ℚ
  high : ℚ
  low : ℚ
  volume : ℚ
  turnover : ℚ
deriving DecidableEq, Repr, Inhabited

/-- The per-record body of the `_prepare_dataframe` loop.  `none` means the
record is skipped (missing required field, failed numeric conversion —
including of the optional `tu` —, non-positive price, or an internally
inconsistent high/low). -/
def parseItem (it : RawItem) : Option Bar :=
  if it.dPresent && it.o.present && it.c.present && it.h.present
      && it.l.present && it.v.present then
    match it.o, it.c, it.h, it.l, it.v with
    | .num o, .num c, .num hi, .num lo, .num v =>
      if o ≤ 0 ∨ c ≤ 0 ∨ hi ≤ 0 ∨ lo ≤ 0 then none
      else if hi < max o c ∨ lo > min o c then none
      else
        match it.tu with
        | .absent => some ⟨it.d, o, c, hi, lo, v * 10000, 0 * 100000000⟩
        | .bad => none
        | .num tu => some ⟨it.d, o, c, hi, lo, v * 10000, tu * 100000000⟩
    | _, _, _, _, _ => none
  else none

/-- `df.drop_duplicates(subset=['date'], keep='last')` on a date-sorted
list: of each run of equal dates keep the last row. -/
def dedupKeepLast : List Bar → List Bar
  | [] => []
  | [a] => [a]
  | a :: b :: t =>
    if a.date = b.date then dedupKeepLast (b :: t) else a :: dedupKeepLast (b :: t)

/-- `_prepare_dataframe`: cap to the most recent 500 records, drop malformed
records, fail (`ValueError("没有有效的K线数据")`, here `none`) when nothing
survives, then sort by date and deduplicate keeping the last occurrence.
(pandas' default `sort_values` is an unstable quicksort; the order within a
run of equal timestamps is unspecified upstream, and no claim depends on it —
a stable merge sort is used here.) -/
def prepareDataframe (kline : List RawItem) : Option (List Bar) :=
  let capped := if 500 < kline.length then kline.drop (kline.length - 500) else kline
  let data := capped.filterMap parseItem
  if data.isEmpty then none
  else some (dedupKeepLast (data.mergeSort (fun a b => a.date ≤ b.date)))

/-- The close column of the normalized frame. -/
def closesOf (df : List Bar) : List ℚ := df.map Bar.close

/-- The volume column of the normalized frame. -/
def volumesOf (df : List Bar) : List ℚ := df.map Bar.volume

/-! ### Rounding (Python `round`, banker's rounding) -/

/-- Python `round` to an integer: round half to even. -/
def roundHalfEven (x : ℚ) : ℤ :=
  let f := ⌊x⌋
  let r := x - f
  if r < 1 / 2 then f
  else if 1 / 2 < r then f + 1
  else if 2 ∣ f then f else f + 1

/-- Python `round(x, 2)`. -/
def round2 (x : ℚ) : ℚ := (roundHalfEven (x * 100) : ℚ) / 100

/-- Python `round(x, 4)`. -/
def round4 (x : ℚ) : ℚ := (roundHalfEven (x * 10000) : ℚ) / 10000

/-- The `volume` value written into report snapshots and latest values:
`round(volume / 10000, 2)` (back from 手 to 万手). -/
def reportVolume (b : Bar) : ℚ := round2 (b.volume / 10000)

/-- A defined cell rounded to 2 decimals, an undefined one omitted
(`not pd.isna(...)` guard; ±∞ cannot occur in the series this is applied
to — they are finite by construction). -/
def optRound2 : PVal → Option ℚ
  | .val q => some (round2 q)
  | _ => none

/-- A defined cell rounded to 4 decimals (MACD family), `pd.isna` guard. -/
def optRound4 : PVal → Option ℚ
  | .val q => some (round4 q)
  | _ => none

/-! ### Anomaly Detector (`find_volume_anomalies`) -/

/-- One emitted volume anomaly (the date string is represented by the bar
index of the normalized series). -/
structure Anomaly where
  idx : Nat
  volume : ℚ
  priceChange : PVal
  volumeRatio : PVal
deriving DecidableEq, Repr

/-- `volume / volume.rolling(20).mean()` at position `i`. -/
def volRatio (df : List Bar) (i : Nat) : PVal :=
  PVal.div (pvalAt (volumesOf df) i) (rollingMeanF 20 (volumesOf df) i)

/-- `(close - close.shift(1)) / close.shift(1) * 100` at position `i`. -/
def priceChangeP (df : List Bar) (i : Nat) : PVal :=
  PVal.mul
    (PVal.div (PVal.sub (pvalAt (closesOf df) i) (shiftAt (closesOf df) i))
      (shiftAt (closesOf df) i))
    (.val 100)

/-- `find_volume_anomalies(threshold=2.0)`: scan every position, emit where
`volume_ratio > threshold and abs(price_change) > 3` (NaN comparisons are
false, so the first bar and positions with an incomplete 20-window never
fire). -/
def findVolumeAnomalies (df : List Bar) (threshold : ℚ := 2) : List Anomaly :=
  (List.range df.length).filterMap fun i =>
    if PVal.gt (volRatio df i) (.val threshold)
        && PVal.gt (PVal.abs (priceChangeP df i)) (.val 3) then
      some ⟨i, qAt (volumesOf df) i, priceChangeP df i, volRatio df i⟩
    else none

/-! ### Signal Detector (`find_technical_signals`) -/

/-- The six signal kinds. -/
inductive SignalKind where
  | rsiOverbought | rsiOversold | macdGolden | macdDead | maGolden | maDead
deriving DecidableEq, Repr

/-- One emitted signal (the date string is represented by the bar index). -/
structure Signal where
  idx : Nat
  kind : SignalKind
deriving DecidableEq, Repr

/-- The signals appended for one loop index `i` of `find_technical_signals`,
in source order: the RSI block, the MACD block, the MA block, each guarded
by `i > 0`.  MACD cells are always finite, so those float comparisons are
plain rational comparisons. -/
def signalsAtIdx (cs : List ℚ) (i : Nat) : List Signal :=
  (if 0 < i then
    (if PVal.gt (rsiF cs i) (.val 70) && PVal.le (rsiF cs (i - 1)) (.val 70) then
      [⟨i, .rsiOverbought⟩]
    else if PVal.lt (rsiF cs i) (.val 30) && PVal.ge (rsiF cs (i - 1)) (.val 30) then
      [⟨i, .rsiOversold⟩]
    else [])
  else []) ++
  (if 0 < i then
    (if decide (qAt (signalL cs) i < qAt (macdL cs) i)
        && decide (qAt (macdL cs) (i - 1) ≤ qAt (signalL cs) (i - 1)) then
      [⟨i, .macdGolden⟩]
    else if decide (qAt (macdL cs) i < qAt (signalL cs) i)
        && decide (qAt (signalL cs) (i - 1) ≤ qAt (macdL cs) (i - 1)) then
      [⟨i, .macdDead⟩]
    else [])
  else []) ++
  (if 0 < i then
    (if PVal.gt (maF 5 cs i) (maF 10 cs i)
        && PVal.le (maF 5 cs (i - 1)) (maF 10 cs (i - 1)) then
      [⟨i, .maGolden⟩]
    else if PVal.lt (maF 5 cs i) (maF 10 cs i)
        && PVal.ge (maF 5 cs (i - 1)) (maF 10 cs (i - 1)) then
      [⟨i, .maDead⟩]
    else [])
  else [])

/-- `recent_days = min(20, len(self.df))`. -/
def recentDays (len : Nat) : Nat := min 20 len

/-- `start_idx = len(self.df) - recent_days`. -/
def startIdx (len : Nat) : Nat := len - recentDays len

/-- `find_technical_signals`: the loop `for i in range(start_idx, len)`. -/
def findTechnicalSignals (cs : List ℚ) : List Signal :=
  (List.range' (startIdx cs.length) (recentDays cs.length)).flatMap (signalsAtIdx cs)

/-! ### Risk-Warning Generator (`generate_risk_warnings`) -/

/-- The five heuristic warnings, in source order of evaluation. -/
inductive RiskWarning where
  | rsiHigh | rsiLow | volShrink | volSpike | belowMa20
deriving DecidableEq, Repr

/-- `generate_risk_warnings`: stateless rules on the latest bar's values
(NaN comparisons are false, so a short series emits no warning needing an
unavailable indicator). -/
def generateRiskWarnings (df : List Bar) : List RiskWarning :=
  let n := df.length
  let latestRsi := rsiF (closesOf df) (n - 1)
  let latestVolume := pvalAt (volumesOf df) (n - 1)
  let latestVolumeMa := rollingMeanF 20 (volumesOf df) (n - 1)
  let latestPrice := pvalAt (closesOf df) (n - 1)
  let latestMa20 := maF 20 (closesOf df) (n - 1)
  (if PVal.gt latestRsi (.val 70) then [.rsiHigh]
   else if PVal.lt latestRsi (.val 30) then [.rsiLow] else []) ++
  (if PVal.lt latestVolume (PVal.mul latestVolumeMa (.val (7 / 10))) then [.volShrink]
   else if PVal.gt latestVolume (PVal.mul latestVolumeMa (.val 2)) then [.volSpike]
   else []) ++
  (if PVal.lt latestPrice (PVal.mul latestMa20 (.val (19 / 20))) then [.belowMa20] else [])

/-! ### Report assembly (`calculate_all_indicators`,
`find_support_resistance`, `calculate_comprehensive_analysis`)

Only the indicator fields relevant to the claims (close, volume, MA family,
RSI, MACD family) are carried in the report model; the remaining per-date
fields of the source (Bollinger, KDJ, ATR, ADX, OBV, MFI, CCI) are computed
the same way and omitted here, no claim concerning them. -/

/-- One per-date snapshot of `indicators_by_date`. -/
structure Snapshot where
  idx : Nat
  close : ℚ
  volume : ℚ
  ma5 : Option ℚ
  ma10 : Option ℚ
  ma20 : Option ℚ
  ma60 : Option ℚ
  rsi : Option ℚ
  macd : Option ℚ
  macdSignal : Option ℚ
  macdHist : Option ℚ
deriving DecidableEq, Repr

/-- The `latest` block of the comprehensive analysis (the merged
`close/volume/ma20/ma60` entries and `latest_values`; `latest_values`
recomputes `ma20`/`ma60` identically, so the merge collapses). -/
structure Latest where
  close : ℚ
  volume : ℚ
  ma5 : Option ℚ
  ma10 : Option ℚ
  ma20 : Option ℚ
  ma60 : Option ℚ
  rsi : Option ℚ
  macd : Option ℚ
  macdSignal : Option ℚ
  macdHist : Option ℚ
deriving DecidableEq, Repr

/-- The snapshot of bar `i` built by `calculate_all_indicators`. -/
def mkSnapshot (df : List Bar) (i : Nat) : Snapshot :=
  let cs := closesOf df
  { idx := i
    close := round2 (qAt cs i)
    volume := reportVolume ((df.getD i default))
    ma5 := optRound2 (maF 5 cs i)
    ma10 := optRound2 (maF 10 cs i)
    ma20 := optRound2 (maF 20 cs i)
    ma60 := optRound2 (maF 60 cs i)
    rsi := optRound2 (rsiF cs i)
    macd := optRound4 (macdP cs i)
    macdSignal := optRound4 (signalP cs i)
    macdHist := optRound4 (histP cs i) }

/-- `indicators_by_date` over `df.tail(recentDays)`. -/
def recentSnapshots (df : List Bar) (recentPts : Nat) : List Snapshot :=
  (List.range' (df.length - min recentPts df.length) (min recentPts df.length)).map
    (mkSnapshot df)

/-- The `latest` block (index `len(df) - 1`). -/
def latestOf (df : List Bar) : Latest :=
  let s := mkSnapshot df (df.length - 1)
  { close := s.close, volume := s.volume, ma5 := s.ma5, ma10 := s.ma10
    ma20 := s.ma20, ma60 := s.ma60, rsi := s.rsi, macd := s.macd
    macdSignal := s.macdSignal, macdHist := s.macdHist }

/-- `find_support_resistance(period=20)`: min low / max high over
`df.tail(20)`. -/
def findSupportResistance (df : List Bar) : ℚ × ℚ :=
  let recent := df.drop (df.length - 20)
  (((recent.map Bar.low).min?).getD 0, ((recent.map Bar.high).max?).getD 0)

/-- One timeframe's comprehensive analysis. -/
structure TfResult where
  latest : Latest
  support : ℚ
  resistance : ℚ
  signals : List Signal
  riskWarnings : List RiskWarning
  recent : List Snapshot
deriving DecidableEq, Repr

/-- `calculate_comprehensive_analysis(recent_points)`.  (The source also
calls `find_volume_anomalies` here but does not put its result into the
returned dict.) -/
def comprehensiveAnalysis (df : List Bar) (recentPts : Nat) : TfResult :=
  { latest := latestOf df
    support := (findSupportResistance df).1
    resistance := (findSupportResistance df).2
    signals := findTechnicalSignals (closesOf df)
    riskWarnings := generateRiskWarnings df
    recent := recentSnapshots df recentPts }

/-! ### Timeframe Orchestrator (`main` / `compute_for_series`) -/

/-- The three timeframe labels. -/
inductive Label where
  | day | m60 | m5
deriving DecidableEq, Repr

/-- `recent_points = 5 if label == 'day' else 20 if label == '60m' else 48`. -/
def recentPoints : Label → Nat
  | .day => 5
  | .m60 => 20
  | .m5 => 48

/-- `compute_for_series`: an empty series is skipped (`.ok none`); otherwise
cap to the last 1000 records and run the calculator — a normalization
failure (`ValueError`, no usable bars) propagates as an exception
(`.error ()`), aborting `main`'s whole computation. -/
def computeForSeries (series : List RawItem) (label : Label) :
    Except Unit (Option TfResult) :=
  if series.length = 0 then .ok none
  else
    let ds := if 1000 < series.length then series.drop (series.length - 1000) else series
    match prepareDataframe ds with
    | none => .error ()
    | some df => .ok (some (comprehensiveAnalysis df (recentPoints label)))

/-- The parsed JSON input: a flat array, an object with optional
`day`/`60m`/`5m` keys, or an unsupported shape. -/
inductive ParsedInput where
  | arr (s : List RawItem) : ParsedInput
  | obj (day m60 m5 : Option (List RawItem)) : ParsedInput
  | other : ParsedInput
deriving DecidableEq, Repr

/-- The printed result: the error document of `main`'s `except` branch, or
a success document with its `timeframes` mapping and the optional top-level
mirror of the `day` timeframe (`详细指标` / `近5日指标`). -/
inductive OutputDoc where
  | errorDoc : OutputDoc
  | report (timeframes : List (Label × TfResult))
      (dayMirror : Option (Latest × List Snapshot)) : OutputDoc
deriving DecidableEq, Repr

/-- Fold one timeframe key into the accumulated `output["timeframes"]`,
short-circuiting once an exception has been raised. -/
def addTf (acc : Except Unit (List (Label × TfResult))) (label : Label)
    (s? : Option (List RawItem)) : Except Unit (List (Label × TfResult)) :=
  match acc with
  | .error e => .error e
  | .ok tfs =>
    match s? with
    | none => .ok tfs
    | some s =>
      match computeForSeries s label with
      | .error _ => .error ()
      | .ok none => .ok tfs
      | .ok (some r) => .ok (tfs ++ [(label, r)])

/-- `main` after JSON parsing: dispatch on the input shape, compute each
present timeframe in the order day, 60m, 5m, and shape the output; any
exception yields the error document. -/
def runMain : ParsedInput → OutputDoc
  | .other => .errorDoc
  | .arr s =>
    match computeForSeries s .day with
    | .error _ => .errorDoc
    | .ok none => .report [] none
    | .ok (some r) => .report [(.day, r)] (some (r.latest, r.recent))
  | .obj d s60 s5 =>
    match addTf (addTf (addTf (.ok []) .day d) .m60 s60) .m5 s5 with
    | .error _ => .errorDoc
    | .ok tfs =>
      .report tfs ((tfs.lookup Label.day).map fun r => (r.latest, r.recent))

/-- Is the output the whole-request error document? -/
def docIsError : OutputDoc → Bool
  | .errorDoc => true
  | .report _ _ => false

/-- The timeframe keys present in the output document. -/
def docLabels : OutputDoc → List Label
  | .errorDoc => []
  | .report tfs _ => tfs.map Prod.fst

/-- Does `compute_for_series` produce a TimeframeResult for this series? -/
def csOk (series : List RawItem) (label : Label) : Bool :=
  match computeForSeries series label with
  | .ok (some _) => true
  | _ => false

/-! ### Concrete inputs used by witnesses and counterexamples -/

/-- A flat valid record: all four prices equal `p`, volume `v`. -/
def wItem (d : Nat) (p v : ℚ) : RawItem :=
  { d := d, o := .num p, c := .num p, h := .num p, l := .num p, v := .num v, tu := .absent }

/-- 15 records with strictly increasing closes 1,…,15. -/
def rawUp15 : List RawItem := (List.range 15).map fun i => wItem i ((i : ℚ) + 1) 1

/-- The normalized series of `rawUp15`. -/
def barsUp15 : List Bar := (prepareDataframe rawUp15).getD []

/-- 31 records: ten bars at 10 followed by twenty-one bars at 20; the
MA(5)/MA(10) golden cross happens at index 10, just outside the scanned
window of the last 20 bars. -/
def rawJump31 : List RawItem :=
  (List.range 31).map fun i => wItem i (if i < 10 then 10 else 20) 1

/-- The normalized series of `rawJump31`. -/
def barsJump31 : List Bar := (prepareDataframe rawJump31).getD []

/-- A record every normalization check rejects (non-positive open). -/
def wBadItem : RawItem :=
  { d := 1, o := .num (-1), c := .num 10, h := .num 10, l := .num 10, v := .num 1, tu := .absent }

/-- A record valid in every required field, `tu` present but uncoercible. -/
def wTuBadItem : RawItem :=
  { d := 1, o := .num 10, c := .num 11, h := .num 12, l := .num 9, v := .num 5, tu := .bad }

/-- A fully valid record with a numeric `tu`. -/
def wC9Item : RawItem :=
  { d := 1, o := .num 10, c := .num 11, h := .num 12, l := .num 9, v := .num 3, tu := .num 2 }

/-- 21 bars: twenty quiet bars then a spike (volume ×100, close +10%). -/
def barsSpike21 : List Bar :=
  ((List.range 20).map fun i => Bar.mk i 10 10 10 10 100 0) ++ [Bar.mk 20 11 11 11 11 10000 0]

/-! ### Helper lemmas -/

theorem macdL_length (cs : List ℚ) : (macdL cs).length = cs.length := by
  simp [macdL]

theorem signalL_length (cs : List ℚ) : (signalL cs).length = cs.length := by
  simp [signalL, macdL]

theorem histL_length (cs : List ℚ) : (histL cs).length = cs.length := by
  simp [histL]

theorem closesOf_length (df : List Bar) : (closesOf df).length = df.length := by
  simp [closesOf]

theorem volumesOf_length (df : List Bar) : (volumesOf df).length = df.length := by
  simp [volumesOf]

theorem getD_range_map (f : Nat → ℚ) (n i : Nat) (h : i < n) :
    ((List.range n).map f).getD i 0 = f i := by
  rw [List.getD_eq_getElem?_getD, List.getElem?_map, List.getElem?_range h]
  rfl

theorem rollingMeanF_cases (n : Nat) (xs : List ℚ) (i : Nat) :
    rollingMeanF n xs i = .nan ∨ ∃ q, rollingMeanF n xs i = .val q := by
  unfold rollingMeanF
  split
  · exact Or.inr ⟨_, rfl⟩
  · exact Or.inl rfl

theorem winSum_nonneg (n : Nat) (xs : List ℚ) (i : Nat)
    (hxs : ∀ x ∈ xs, 0 ≤ x) : 0 ≤ winSum n xs i := by
  refine List.sum_nonneg fun x hx => hxs x ?_
  exact List.mem_of_mem_take (List.mem_of_mem_drop hx)

theorem rollingMeanF_val_nonneg (n : Nat) (xs : List ℚ) (i : Nat) (q : ℚ)
    (hxs : ∀ x ∈ xs, 0 ≤ x) (h : rollingMeanF n xs i = .val q) : 0 ≤ q := by
  unfold rollingMeanF at h
  split at h
  · cases h
    exact div_nonneg (winSum_nonneg n xs i hxs) (by positivity)
  · cases h

theorem gains_nonneg (cs : List ℚ) : ∀ x ∈ gains cs, 0 ≤ x := by
  intro x hx
  simp only [gains, List.mem_map, List.mem_range] at hx
  obtain ⟨i, _, rfl⟩ := hx
  split_ifs with h1 h2
  · exact le_refl 0
  · linarith
  · exact le_refl 0

theorem losses_nonneg (cs : List ℚ) : ∀ x ∈ losses cs, 0 ≤ x := by
  intro x hx
  simp only [losses, List.mem_map, List.mem_range] at hx
  obtain ⟨i, _, rfl⟩ := hx
  split_ifs with h1 h2
  · exact le_refl 0
  · linarith
  · exact le_refl 0

/-! ### Claim C1 — MACD definedness before the slow (26) lookback -/

/-- C1 (counterexample): on a valid 2-bar series — shorter than 26 bars —
the MACD diff, signal and histogram are all defined already at position 0
(the diff is even exactly 0 there), contradicting the claim that no
position of the MACD series is defined for a series shorter than 26 bars.
`ewm(span=...).mean()` has `min_periods=0`: it yields values from the very
first bar. -/
theorem c1_counterexample :
    barsUp15.length = 15 ∧ barsUp15.length < 26 ∧
    macdP (closesOf barsUp15) 0 = .val 0 ∧
    (signalP (closesOf barsUp15) 0).isVal = true ∧
    (histP (closesOf barsUp15) 0).isVal = true := by
  refine ⟨by with_unfolding_all rfl, by with_unfolding_all decide, ?_, ?_, ?_⟩ <;>
    with_unfolding_all rfl

/-- C1 (amended): the MACD diff, signal and histogram series are defined at
every in-range position of the close series — their effective minimum
lookback is 1 bar, not the 26 of the slow EMA. -/
theorem c1_macd_defined_from_first_bar (cs : List ℚ) (i : Nat) (h : i < cs.length) :
    (macdP cs i).isVal = true ∧ (signalP cs i).isVal = true ∧
    (histP cs i).isVal = true := by
  refine ⟨?_, ?_, ?_⟩ <;>
    simp [macdP, signalP, histP, pvalAt, macdL_length, signalL_length, histL_length,
      h, PVal.isVal]

/-- Witness for `c1_macd_defined_from_first_bar` at a concrete 2-bar series. -/
theorem c1_witness :
    (macdP [10, 11] 0).isVal = true ∧ (signalP [10, 11] 0).isVal = true ∧
    (histP [10, 11] 0).isVal = true :=
  c1_macd_defined_from_first_bar [10, 11] 0 (by decide)

/-! ### Claim C3 — RSI at a zero-average-loss position -/

/-- C3 (counterexample): the normalized series of 15 strictly increasing
closes has, at position 14, a defined trailing-14 average loss of 0 and a
positive trailing-14 average gain, and the RSI value there is the finite
value 100 — not "no value".  (`gain/loss` is `+∞` in float arithmetic and
`100 - 100/(1 + ∞)` collapses to `100`.) -/
theorem c3_counterexample :
    rollingMeanF 14 (losses (closesOf barsUp15)) 14 = .val 0 ∧
    rollingMeanF 14 (gains (closesOf barsUp15)) 14 = .val 1 ∧
    rsiF (closesOf barsUp15) 14 = .val 100 := by
  refine ⟨?_, ?_, ?_⟩ <;> with_unfolding_all rfl

/-- C3 (amended): at every position whose trailing-14 average loss is a
defined zero while the trailing-14 average gain is defined and positive,
the RSI value equals the finite upper bound 100 (no exception, no infinity,
and not "no value" either). -/
theorem c3_rsi_zero_loss_is_100 (cs : List ℚ) (i : Nat) (g : ℚ)
    (hl : rollingMeanF 14 (losses cs) i = .val 0)
    (hg : rollingMeanF 14 (gains cs) i = .val g) (hgpos : 0 < g) :
    rsiF cs i = .val 100 := by
  unfold rsiF
  rw [hl, hg]
  simp [PVal.div, PVal.add, PVal.sub, PVal.neg, hgpos.ne', hgpos]

/-- Witness for `c3_rsi_zero_loss_is_100` on the increasing 15-close series. -/
theorem c3_witness : rsiF (closesOf barsUp15) 14 = .val 100 :=
  c3_rsi_zero_loss_is_100 (closesOf barsUp15) 14 1
    (by with_unfolding_all rfl) (by with_unfolding_all rfl) (by norm_num)

/-! ### Claim C8 — histogram = diff − signal -/

/-- C8: wherever the three MACD series are all defined, the histogram value
is exactly the diff value minus the signal value. -/
theorem c8_histogram_identity (cs : List ℚ) (i : Nat) (d s h : ℚ)
    (hd : macdP cs i = .val d) (hs : signalP cs i = .val s)
    (hh : histP cs i = .val h) : h = d - s := by
  unfold macdP pvalAt at hd
  unfold signalP pvalAt at hs
  unfold histP pvalAt at hh
  split at hd
  case isFalse => cases hd
  case isTrue hlen =>
    have hi : i < cs.length := by rwa [macdL_length] at hlen
    rw [if_pos (by rwa [signalL_length])] at hs
    rw [if_pos (by rwa [histL_length])] at hh
    cases hd; cases hs; cases hh
    show (histL cs).getD i 0 = (macdL cs).getD i 0 - (signalL cs).getD i 0
    unfold histL
    rw [getD_range_map _ _ _ hi]
    rfl

/-- Witness for `c8_histogram_identity` on a concrete 2-bar series. -/
theorem c8_witness : (7 : ℚ) / 702 = 7 / 312 - 35 / 2808 :=
  c8_histogram_identity [10, 11] 1 (7 / 312) (35 / 2808) (7 / 702)
    (by with_unfolding_all rfl) (by with_unfolding_all rfl) (by with_unfolding_all rfl)

/-! ### Claim C10 — a record with an uncoercible optional `tu` is dropped -/

/-- C10: a record whose required fields are all present, numeric and
consistent, but whose optional `tu` field is present and not coercible, is
dropped entirely (the `float(item.get('tu', 0))` conversion raises inside
the same `try` as the append), not kept with turnover 0. -/
theorem c10_bad_turnover_drops_record (it : RawItem) (o c hi lo v : ℚ)
    (hd : it.dPresent = true) (ho : it.o = .num o) (hc : it.c = .num c)
    (hh : it.h = .num hi) (hl : it.l = .num lo) (hv : it.v = .num v)
    (htu : it.tu = .bad)
    (hpos : 0 < o ∧ 0 < c ∧ 0 < hi ∧ 0 < lo)
    (hcons : max o c ≤ hi ∧ lo ≤ min o c) :
    parseItem it = none := by
  obtain ⟨hpo, hpc, hph, hpl⟩ := hpos
  obtain ⟨hc1, hc2⟩ := hcons
  simp only [parseItem, hd, ho, hc, hh, hl, hv, htu, Field.present, Bool.and_self,
    Bool.and_true, if_true]
  rw [if_neg, if_neg]
  · push_neg
    exact ⟨hc1, hc2⟩
  · push_neg
    exact ⟨hpo, hpc, hph, hpl⟩

/-- Witness for `c10_bad_turnover_drops_record` at a concrete record. -/
theorem c10_witness : parseItem wTuBadItem = none :=
  c10_bad_turnover_drops_record wTuBadItem 10 11 12 9 5 rfl rfl rfl rfl rfl rfl rfl
    (by norm_num) (by constructor <;> norm_num)

/-! ### Claim C9 — the ×10000 volume conversion is undone at report time -/

/-- C9: for every record the normalizer accepts, the `volume` value the
report assembler produces (`round(volume / 10000, 2)`, used by both the
recent-history snapshots and the latest-values block) equals the record's
original input volume rounded to 2 decimals: the ×10000 ingestion
conversion is exactly undone. -/
theorem c9_volume_roundtrip (it : RawItem) (b : Bar) (hp : parseItem it = some b) :
    ∃ q, it.v = .num q ∧ reportVolume b = round2 q ∧
      (latestOf [b]).volume = round2 q := by
  unfold parseItem at hp
  split at hp
  case isFalse => cases hp
  case isTrue hpres =>
    split at hp
    case h_2 => cases hp
    case h_1 o c hi lo v ho hc hh hl hv =>
      split at hp
      case isTrue => cases hp
      case isFalse =>
        split at hp
        case isTrue => cases hp
        case isFalse =>
          have hvol : b.volume = v * 10000 := by
            split at hp
            · cases hp; rfl
            · cases hp
            · cases hp; rfl
          refine ⟨v, hv, ?_, ?_⟩ <;>
            simp [latestOf, mkSnapshot, reportVolume, hvol,
              mul_div_cancel_right₀ v (by norm_num : (10000 : ℚ) ≠ 0)]

/-- Witness for `c9_volume_roundtrip` at a concrete record (input volume 3,
stored volume 30000, reported volume `round(3, 2) = 3`). -/
theorem c9_witness :
    ∃ q, wC9Item.v = .num q ∧
      reportVolume (Bar.mk 1 10 11 12 9 30000 200000000) = round2 q ∧
      (latestOf [Bar.mk 1 10 11 12 9 30000 200000000]).volume = round2 q :=
  c9_volume_roundtrip wC9Item (Bar.mk 1 10 11 12 9 30000 200000000)
    (by with_unfolding_all rfl)

/-! ### Claim C7 — RSI is bounded in [0, 100] wherever defined -/

/-- C7: every defined RSI(14) value lies in the closed interval [0, 100]
(the value 100 itself is attained through the zero-average-loss path). -/
theorem c7_rsi_bounded (cs : List ℚ) (i : Nat) (q : ℚ)
    (h : rsiF cs i = .val q) : 0 ≤ q ∧ q ≤ 100 := by
  unfold rsiF at h
  rcases rollingMeanF_cases 14 (gains cs) i with hg | ⟨g, hg⟩ <;>
    rcases rollingMeanF_cases 14 (losses cs) i with hl | ⟨l, hl⟩ <;>
    rw [hg, hl] at h
  · simp [PVal.div, PVal.add, PVal.sub, PVal.neg] at h
  · simp [PVal.div, PVal.add, PVal.sub, PVal.neg] at h
  · simp [PVal.div, PVal.add, PVal.sub, PVal.neg] at h
  · have hg0 : 0 ≤ g := rollingMeanF_val_nonneg 14 (gains cs) i g (gains_nonneg cs) hg
    have hl0 : 0 ≤ l := rollingMeanF_val_nonneg 14 (losses cs) i l (losses_nonneg cs) hl
    by_cases hlz : l = 0
    · subst hlz
      by_cases hgz : g = 0
      · simp [hgz, PVal.div, PVal.add, PVal.sub, PVal.neg] at h
      · have hgp : (0 : ℚ) < g := lt_of_le_of_ne hg0 (Ne.symm hgz)
        simp [PVal.div, PVal.add, PVal.sub, PVal.neg, hgz, hgp] at h
        constructor <;> linarith [h]
    · have hlp : (0 : ℚ) < l := lt_of_le_of_ne hl0 (Ne.symm hlz)
      have hr0 : 0 ≤ g / l := div_nonneg hg0 hl0
      have h1 : (0 : ℚ) < 1 + g / l := by linarith
      simp [PVal.div, PVal.add, PVal.sub, PVal.neg, hlz, h1.ne'] at h
      have hdpos : 0 < 100 / (1 + g / l) := by positivity
      have hdle : 100 / (1 + g / l) ≤ 100 := by
        apply div_le_self (by norm_num) (by linarith)
      constructor <;> linarith [h]

/-- Witness for `c7_rsi_bounded` at the defined RSI position 14 of the
increasing 15-close series. -/
theorem c7_witness : (0 : ℚ) ≤ 100 ∧ (100 : ℚ) ≤ 100 :=
  c7_rsi_bounded (closesOf barsUp15) 14 100 (by with_unfolding_all rfl)

/-! ### Claim C6 — MA cross signal characterization -/

theorem signalsAtIdx_idx (cs : List ℚ) (i : Nat) (s : Signal)
    (h : s ∈ signalsAtIdx cs i) : s.idx = i := by
  unfold signalsAtIdx at h
  simp only [List.mem_append] at h
  rcases h with (h | h) | h <;> split_ifs at h <;> simp_all

theorem mem_findTechnicalSignals (cs : List ℚ) (s : Signal) :
    s ∈ findTechnicalSignals cs ↔
      (startIdx cs.length ≤ s.idx ∧ s.idx < cs.length) ∧
        s ∈ signalsAtIdx cs s.idx := by
  unfold findTechnicalSignals
  rw [List.mem_flatMap]
  constructor
  · rintro ⟨j, hj, hs⟩
    have hidx := signalsAtIdx_idx cs j s hs
    rw [List.mem_range'_1] at hj
    have hsum : startIdx cs.length + recentDays cs.length = cs.length := by
      unfold startIdx recentDays
      omega
    exact ⟨by omega, by rwa [hidx]⟩
  · rintro ⟨⟨h1, h2⟩, hs⟩
    refine ⟨s.idx, ?_, hs⟩
    rw [List.mem_range'_1]
    have hsum : startIdx cs.length + recentDays cs.length = cs.length := by
      unfold startIdx recentDays
      omega
    omega

/-- A defined-or-NaN case split for `maF`. -/
theorem maF_cases (n : Nat) (cs : List ℚ) (i : Nat) :
    maF n cs i = .nan ∨ ∃ q, maF n cs i = .val q :=
  rollingMeanF_cases n cs i

/-- `PVal.gt` on two cells that are each NaN-or-finite holds exactly when
both are finite and strictly ordered. -/
theorem pval_gt_shape (x y : PVal)
    (hx : x = .nan ∨ ∃ q, x = .val q) (hy : y = .nan ∨ ∃ q, y = .val q) :
    PVal.gt x y = true ↔ ∃ a b, x = .val a ∧ y = .val b ∧ b < a := by
  rcases hx with rfl | ⟨a, rfl⟩ <;> rcases hy with rfl | ⟨b, rfl⟩ <;>
    simp [PVal.gt, PVal.lt]

/-- `PVal.lt` analogue of `pval_gt_shape`. -/
theorem pval_lt_shape (x y : PVal)
    (hx : x = .nan ∨ ∃ q, x = .val q) (hy : y = .nan ∨ ∃ q, y = .val q) :
    PVal.lt x y = true ↔ ∃ a b, x = .val a ∧ y = .val b ∧ a < b := by
  rcases hx with rfl | ⟨a, rfl⟩ <;> rcases hy with rfl | ⟨b, rfl⟩ <;>
    simp [PVal.lt]

/-- `PVal.le` analogue of `pval_gt_shape`. -/
theorem pval_le_shape (x y : PVal)
    (hx : x = .nan ∨ ∃ q, x = .val q) (hy : y = .nan ∨ ∃ q, y = .val q) :
    PVal.le x y = true ↔ ∃ a b, x = .val a ∧ y = .val b ∧ a ≤ b := by
  rcases hx with rfl | ⟨a, rfl⟩ <;> rcases hy with rfl | ⟨b, rfl⟩ <;>
    simp [PVal.le]

/-- `PVal.ge` analogue of `pval_gt_shape`. -/
theorem pval_ge_shape (x y : PVal)
    (hx : x = .nan ∨ ∃ q, x = .val q) (hy : y = .nan ∨ ∃ q, y = .val q) :
    PVal.ge x y = true ↔ ∃ a b, x = .val a ∧ y = .val b ∧ b ≤ a := by
  rcases hx with rfl | ⟨a, rfl⟩ <;> rcases hy with rfl | ⟨b, rfl⟩ <;>
    simp [PVal.ge, PVal.le]

theorem maGolden_block (cs : List ℚ) (i : Nat) (h3 : 0 < i) :
    ((⟨i, .maGolden⟩ : Signal) ∈ signalsAtIdx cs i) ↔
      (PVal.gt (maF 5 cs i) (maF 10 cs i) = true ∧
       PVal.le (maF 5 cs (i - 1)) (maF 10 cs (i - 1)) = true) := by
  unfold signalsAtIdx
  simp only [if_pos h3, List.mem_append]
  split_ifs <;> simp_all

theorem maDead_block (cs : List ℚ) (i : Nat) (h3 : 0 < i) :
    ((⟨i, .maDead⟩ : Signal) ∈ signalsAtIdx cs i) ↔
      (¬(PVal.gt (maF 5 cs i) (maF 10 cs i) = true ∧
         PVal.le (maF 5 cs (i - 1)) (maF 10 cs (i - 1)) = true) ∧
       PVal.lt (maF 5 cs i) (maF 10 cs i) = true ∧
       PVal.ge (maF 5 cs (i - 1)) (maF 10 cs (i - 1)) = true) := by
  unfold signalsAtIdx
  simp only [if_pos h3, List.mem_append]
  split_ifs <;> simp_all

/-- C6: in the scanned window, an MA-golden-cross signal is emitted at `i`
iff MA(5) and MA(10) are defined at `i-1` and `i` with
MA(5)[i-1] ≤ MA(10)[i-1] and MA(5)[i] > MA(10)[i]; symmetrically an
MA-dead-cross is emitted iff MA(5)[i-1] ≥ MA(10)[i-1] and
MA(5)[i] < MA(10)[i].  Undefined (NaN) endpoints never emit. -/
theorem c6_ma_cross_characterization (cs : List ℚ) (i : Nat)
    (h1 : startIdx cs.length ≤ i) (h2 : i < cs.length) (h3 : 1 ≤ i) :
    (((⟨i, .maGolden⟩ : Signal) ∈ findTechnicalSignals cs) ↔
      ∃ a b c d, maF 5 cs (i - 1) = .val a ∧ maF 10 cs (i - 1) = .val b ∧
        maF 5 cs i = .val c ∧ maF 10 cs i = .val d ∧ a ≤ b ∧ d < c) ∧
    (((⟨i, .maDead⟩ : Signal) ∈ findTechnicalSignals cs) ↔
      ∃ a b c d, maF 5 cs (i - 1) = .val a ∧ maF 10 cs (i - 1) = .val b ∧
        maF 5 cs i = .val c ∧ maF 10 cs i = .val d ∧ b ≤ a ∧ c < d) := by
  have hgt := pval_gt_shape (maF 5 cs i) (maF 10 cs i)
    (maF_cases 5 cs i) (maF_cases 10 cs i)
  have hlt := pval_lt_shape (maF 5 cs i) (maF 10 cs i)
    (maF_cases 5 cs i) (maF_cases 10 cs i)
  have hle := pval_le_shape (maF 5 cs (i - 1)) (maF 10 cs (i - 1))
    (maF_cases 5 cs (i - 1)) (maF_cases 10 cs (i - 1))
  have hge := pval_ge_shape (maF 5 cs (i - 1)) (maF 10 cs (i - 1))
    (maF_cases 5 cs (i - 1)) (maF_cases 10 cs (i - 1))
  constructor
  · rw [mem_findTechnicalSignals]
    dsimp only
    rw [and_iff_right ⟨h1, h2⟩, maGolden_block cs i h3, hgt, hle]
    constructor
    · rintro ⟨⟨c, d, hc, hd, hdc⟩, ⟨a, b, ha, hb, hab⟩⟩
      exact ⟨a, b, c, d, ha, hb, hc, hd, hab, hdc⟩
    · rintro ⟨a, b, c, d, ha, hb, hc, hd, hab, hdc⟩
      exact ⟨⟨c, d, hc, hd, hdc⟩, ⟨a, b, ha, hb, hab⟩⟩
  · rw [mem_findTechnicalSignals]
    dsimp only
    rw [and_iff_right ⟨h1, h2⟩, maDead_block cs i h3, hlt, hge, hgt, hle]
    constructor
    · rintro ⟨-, ⟨c, d, hc, hd, hcd⟩, ⟨a, b, ha, hb, hba⟩⟩
      exact ⟨a, b, c, d, ha, hb, hc, hd, hba, hcd⟩
    · rintro ⟨a, b, c, d, ha, hb, hc, hd, hba, hcd⟩
      refine ⟨?_, ⟨c, d, hc, hd, hcd⟩, ⟨a, b, ha, hb, hba⟩⟩
      rintro ⟨⟨c', d', hc', hd', hdc'⟩, -⟩
      rw [hc] at hc'
      rw [hd] at hd'
      cases hc'
      cases hd'
      exact absurd hdc' (lt_asymm hcd)

/-- Witness for `c6_ma_cross_characterization` at index 11 of the
31-bar jump series. -/
theorem c6_witness :
    (((⟨11, .maGolden⟩ : Signal) ∈ findTechnicalSignals (closesOf barsJump31)) ↔
      ∃ a b c d, maF 5 (closesOf barsJump31) 10 = .val a ∧
        maF 10 (closesOf barsJump31) 10 = .val b ∧
        maF 5 (closesOf barsJump31) 11 = .val c ∧
        maF 10 (closesOf barsJump31) 11 = .val d ∧ a ≤ b ∧ d < c) ∧
    (((⟨11, .maDead⟩ : Signal) ∈ findTechnicalSignals (closesOf barsJump31)) ↔
      ∃ a b c d, maF 5 (closesOf barsJump31) 10 = .val a ∧
        maF 10 (closesOf barsJump31) 10 = .val b ∧
        maF 5 (closesOf barsJump31) 11 = .val c ∧
        maF 10 (closesOf barsJump31) 11 = .val d ∧ b ≤ a ∧ c < d) :=
  c6_ma_cross_characterization (closesOf barsJump31) 11
    (by with_unfolding_all decide) (by with_unfolding_all decide) (by decide)

/-! ### Claim C4 — the signal-scan window is 20 bars for every timeframe -/

/-- C4 (counterexample): the 31-bar "60m" series `barsJump31` has its
MA(5)/MA(10) golden cross at index 10 (all four endpoints defined,
MA(5) 10 ≤ 10 before, 12 > 11 after), yet the 60m TimeframeResult emits no
signal at index 10: the scan starts at index 31 − min(20,31) = 11 for the
60m timeframe too, so no window "proportionally larger than 20" is used. -/
theorem c4_counterexample :
    (((comprehensiveAnalysis barsJump31 (recentPoints .m60)).signals.any
        fun s => decide (s.idx = 10)) = false) ∧
    maF 5 (closesOf barsJump31) 9 = .val 10 ∧
    maF 10 (closesOf barsJump31) 9 = .val 10 ∧
    maF 5 (closesOf barsJump31) 10 = .val 12 ∧
    maF 10 (closesOf barsJump31) 10 = .val 11 ∧
    barsJump31.length = 31 := by
  refine ⟨?_, ?_, ?_, ?_, ?_, ?_⟩ <;> with_unfolding_all rfl

/-- C4 (amended): the signal detector always scans the most recent
min(20, length) bars — the timeframe label (whose `recent_points` 5/20/48
sizes only the recent-history snapshot slice) does not change the emitted
signals, and every emitted signal lies in that window of 20. -/
theorem c4_signal_window_is_20 (df : List Bar) (l1 l2 : Label) (s : Signal)
    (h : s ∈ (comprehensiveAnalysis df (recentPoints l1)).signals) :
    (comprehensiveAnalysis df (recentPoints l1)).signals
      = (comprehensiveAnalysis df (recentPoints l2)).signals ∧
    df.length - min 20 df.length ≤ s.idx ∧ s.idx < df.length := by
  refine ⟨rfl, ?_⟩
  have h' : s ∈ findTechnicalSignals (closesOf df) := h
  rw [mem_findTechnicalSignals] at h'
  have hlen := closesOf_length df
  unfold startIdx recentDays at h'
  omega

/-- Witness for `c4_signal_window_is_20`: the MACD dead cross emitted at
index 23 of the 31-bar jump series lies within the last-20 window. -/
theorem c4_witness :
    (comprehensiveAnalysis barsJump31 (recentPoints .m60)).signals
      = (comprehensiveAnalysis barsJump31 (recentPoints .m5)).signals ∧
    barsJump31.length - min 20 barsJump31.length ≤ (23 : Nat) ∧
    (23 : Nat) < barsJump31.length :=
  c4_signal_window_is_20 barsJump31 .m60 .m5 ⟨23, .macdDead⟩
    (by with_unfolding_all decide)

/-! ### Claim C5 — volume-anomaly characterization -/

theorem PVal.add_val_val (a b : ℚ) : (PVal.val a).add (.val b) = .val (a + b) := rfl

theorem PVal.sub_val_val (a b : ℚ) : (PVal.val a).sub (.val b) = .val (a - b) := by
  simp [PVal.sub, PVal.neg, PVal.add, sub_eq_add_neg]

theorem PVal.mul_val_val (a b : ℚ) : (PVal.val a).mul (.val b) = .val (a * b) := rfl

theorem PVal.div_val_val (a b : ℚ) :
    (PVal.val a).div (.val b) =
      if b = 0 then (if a = 0 then .nan else .inf (decide (0 < a))) else .val (a / b) := rfl

theorem PVal.abs_val (a : ℚ) : (PVal.val a).abs = .val |a| := rfl

theorem PVal.gt_val_val (a b : ℚ) : (PVal.val a).gt (.val b) = decide (b < a) := rfl

theorem PVal.sub_x_nan (x : PVal) : x.sub .nan = .nan := by cases x <;> rfl

theorem PVal.div_nan_left (y : PVal) : PVal.div .nan y = .nan := by cases y <;> rfl

theorem PVal.div_x_nan (x : PVal) : PVal.div x .nan = .nan := by cases x <;> rfl

theorem PVal.mul_nan_left (y : PVal) : PVal.mul .nan y = .nan := by cases y <;> rfl

theorem PVal.gt_x_nan (x : PVal) : PVal.gt x .nan = false := by cases x <;> rfl

theorem PVal.gt_nan_x (x : PVal) : PVal.gt .nan x = false := by
  cases x with
  | nan => rfl
  | inf p => cases p <;> rfl
  | val q => rfl

theorem qAt_eq_getElem (xs : List ℚ) (i : Nat) (h : i < xs.length) :
    qAt xs i = xs[i] := by
  simp [qAt, List.getD_eq_getElem?_getD, List.getElem?_eq_getElem h]

theorem qAt_mem (xs : List ℚ) (i : Nat) (h : i < xs.length) : qAt xs i ∈ xs := by
  rw [qAt_eq_getElem xs i h]
  exact List.getElem_mem h

theorem qAt_nonneg (xs : List ℚ) (i : Nat) (h : ∀ x ∈ xs, 0 ≤ x) : 0 ≤ qAt xs i := by
  by_cases hi : i < xs.length
  · exact h _ (qAt_mem xs i hi)
  · simp [qAt, List.getD_eq_getElem?_getD, List.getElem?_eq_none (le_of_not_lt hi)]

theorem qAt_pos (xs : List ℚ) (i : Nat) (hi : i < xs.length)
    (h : ∀ x ∈ xs, 0 < x) : 0 < qAt xs i :=
  h _ (qAt_mem xs i hi)

/-- The current element belongs to its own trailing window. -/
theorem qAt_mem_window (n : Nat) (xs : List ℚ) (i : Nat) (hi : i < xs.length)
    (hn : 1 ≤ n) : qAt xs i ∈ (xs.take (i + 1)).drop (i + 1 - n) := by
  have hk : (i + 1 - n) + (i - (i + 1 - n)) = i := by omega
  have h1 : ((xs.take (i + 1)).drop (i + 1 - n))[i - (i + 1 - n)]? = some xs[i] := by
    rw [List.getElem?_drop, List.getElem?_take]
    rw [if_pos (by omega)]
    rw [hk, List.getElem?_eq_getElem hi]
  have h2 : xs[i] ∈ (xs.take (i + 1)).drop (i + 1 - n) := by
    have := List.getElem?_eq_some_iff.mp h1
    obtain ⟨hlt, hget⟩ := this
    exact hget ▸ List.getElem_mem hlt
  rw [qAt_eq_getElem xs i hi]
  exact h2

/-- If a trailing window of nonnegative values sums to zero, the current
element is zero. -/
theorem winSum_zero_elem (n : Nat) (xs : List ℚ) (i : Nat) (hi : i < xs.length)
    (hn : 1 ≤ n) (hnn : ∀ x ∈ xs, 0 ≤ x) (h0 : winSum n xs i = 0) :
    qAt xs i = 0 := by
  have hwnn : ∀ x ∈ (xs.take (i + 1)).drop (i + 1 - n), 0 ≤ x := fun x hx =>
    hnn x (List.mem_of_mem_take (List.mem_of_mem_drop hx))
  have hle := List.single_le_sum hwnn _ (qAt_mem_window n xs i hi hn)
  have hge := qAt_nonneg xs i hnn
  unfold winSum at h0
  linarith [h0 ▸ hle]

/-- Membership characterization of the anomaly scan. -/
theorem anomalyAt_iff (df : List Bar) (i : Nat) :
    ((findVolumeAnomalies df).any fun a => decide (a.idx = i)) = true ↔
      i < df.length ∧
        PVal.gt (volRatio df i) (.val 2) = true ∧
        PVal.gt (PVal.abs (priceChangeP df i)) (.val 3) = true := by
  unfold findVolumeAnomalies
  rw [List.any_eq_true]
  constructor
  · rintro ⟨a, ha, hai⟩
    rw [List.mem_filterMap] at ha
    obtain ⟨j, hj, hfa⟩ := ha
    rw [List.mem_range] at hj
    split at hfa
    case isTrue hcond =>
      cases hfa
      simp only [decide_eq_true_eq] at hai
      subst hai
      rw [Bool.and_eq_true] at hcond
      exact ⟨hj, hcond⟩
    case isFalse => cases hfa
  · rintro ⟨hi, hx, hy⟩
    refine ⟨⟨i, qAt (volumesOf df) i, priceChangeP df i, volRatio df i⟩, ?_, by simp⟩
    rw [List.mem_filterMap]
    refine ⟨i, List.mem_range.mpr hi, ?_⟩
    rw [if_pos (by rw [Bool.and_eq_true]; exact ⟨hx, hy⟩)]

/-- The volume-ratio comparison in rational terms, for a nonnegative volume
column. -/
theorem volRatio_gt_iff (df : List Bar) (i : Nat) (hi : i < df.length)
    (hvol : ∀ x ∈ volumesOf df, 0 ≤ x) :
    (PVal.gt (volRatio df i) (.val 2) = true ↔
      19 ≤ i ∧ 2 < qAt (volumesOf df) i / (winSum 20 (volumesOf df) i / 20)) := by
  have hlen : (volumesOf df).length = df.length := volumesOf_length df
  have hval : pvalAt (volumesOf df) i = .val (qAt (volumesOf df) i) := by
    unfold pvalAt qAt
    rw [if_pos (by omega)]
  by_cases h19 : 19 ≤ i
  · have hroll : rollingMeanF 20 (volumesOf df) i =
        .val (winSum 20 (volumesOf df) i / 20) := by
      unfold rollingMeanF
      rw [if_pos ⟨by omega, by omega⟩]
      norm_num
    unfold volRatio
    rw [hval, hroll, PVal.div_val_val]
    by_cases ha : winSum 20 (volumesOf df) i / 20 = 0
    · have hsum0 : winSum 20 (volumesOf df) i = 0 := by
        by_contra hne
        exact hne (by field_simp at ha; exact ha)
      have hv0 : qAt (volumesOf df) i = 0 :=
        winSum_zero_elem 20 (volumesOf df) i (by omega) (by norm_num) hvol hsum0
      rw [if_pos ha, if_pos hv0, ha, hv0]
      simp [PVal.gt_nan_x]
    · rw [if_neg ha, PVal.gt_val_val]
      simp [h19]
  · have hroll : rollingMeanF 20 (volumesOf df) i = .nan := by
      unfold rollingMeanF
      rw [if_neg (by omega)]
    unfold volRatio
    rw [hval, hroll, PVal.div_x_nan, PVal.gt_nan_x]
    simp [h19]

/-- The price-change comparison in rational terms, for a positive close
column. -/
theorem priceChange_gt_iff (df : List Bar) (i : Nat) (hi : i < df.length)
    (hcl : ∀ x ∈ closesOf df, 0 < x) :
    (PVal.gt (PVal.abs (priceChangeP df i)) (.val 3) = true ↔
      1 ≤ i ∧
        3 < |(qAt (closesOf df) i - qAt (closesOf df) (i - 1)) /
              qAt (closesOf df) (i - 1) * 100|) := by
  have hlen : (closesOf df).length = df.length := closesOf_length df
  have hval : pvalAt (closesOf df) i = .val (qAt (closesOf df) i) := by
    unfold pvalAt qAt
    rw [if_pos (by omega)]
  by_cases h0 : 1 ≤ i
  · have hshift : shiftAt (closesOf df) i = .val (qAt (closesOf df) (i - 1)) := by
      unfold shiftAt qAt
      rw [if_pos ⟨by omega, by omega⟩]
    have hcpos : 0 < qAt (closesOf df) (i - 1) :=
      qAt_pos (closesOf df) (i - 1) (by omega) hcl
    unfold priceChangeP
    rw [hval, hshift, PVal.sub_val_val, PVal.div_val_val, if_neg hcpos.ne',
      PVal.mul_val_val, PVal.abs_val, PVal.gt_val_val]
    simp [h0]
  · have hiz : i = 0 := by omega
    subst hiz
    have hshift : shiftAt (closesOf df) 0 = .nan := by
      unfold shiftAt
      rw [if_neg (by omega)]
    unfold priceChangeP
    rw [hval, hshift, PVal.sub_x_nan, PVal.div_nan_left, PVal.mul_nan_left]
    simp [PVal.abs, PVal.gt_nan_x]

/-- C5: an anomaly is emitted at bar `i` iff the trailing-20 volume average
is defined there (`19 ≤ i < length`), bar `i` has a previous close
(`1 ≤ i`), the volume ratio exceeds 2, and the absolute percentage price
change exceeds 3.  In particular no anomaly is ever emitted at the first
bar. -/
theorem c5_anomaly_characterization (df : List Bar) (i : Nat)
    (hvol : ∀ b ∈ df, 0 ≤ b.volume) (hcl : ∀ b ∈ df, 0 < b.close) :
    ((findVolumeAnomalies df).any fun a => decide (a.idx = i)) = true ↔
      (19 ≤ i ∧ i < df.length ∧ 1 ≤ i ∧
        2 < qAt (volumesOf df) i / (winSum 20 (volumesOf df) i / 20) ∧
        3 < |(qAt (closesOf df) i - qAt (closesOf df) (i - 1)) /
              qAt (closesOf df) (i - 1) * 100|) := by
  have hvol' : ∀ x ∈ volumesOf df, 0 ≤ x := by
    intro x hx
    simp only [volumesOf, List.mem_map] at hx
    obtain ⟨b, hb, rfl⟩ := hx
    exact hvol b hb
  have hcl' : ∀ x ∈ closesOf df, 0 < x := by
    intro x hx
    simp only [closesOf, List.mem_map] at hx
    obtain ⟨b, hb, rfl⟩ := hx
    exact hcl b hb
  rw [anomalyAt_iff]
  constructor
  · rintro ⟨hi, hr, hp⟩
    obtain ⟨h19, hratio⟩ := (volRatio_gt_iff df i hi hvol').mp hr
    obtain ⟨h1, hpct⟩ := (priceChange_gt_iff df i hi hcl').mp hp
    exact ⟨h19, hi, h1, hratio, hpct⟩
  · rintro ⟨h19, hi, h1, hratio, hpct⟩
    exact ⟨hi, (volRatio_gt_iff df i hi hvol').mpr ⟨h19, hratio⟩,
      (priceChange_gt_iff df i hi hcl').mpr ⟨h1, hpct⟩⟩

/-- Witness for `c5_anomaly_characterization` at the spike bar (index 20)
of the 21-bar spike series. -/
theorem c5_witness :
    ((findVolumeAnomalies barsSpike21).any fun a => decide (a.idx = 20)) = true ↔
      (19 ≤ 20 ∧ 20 < barsSpike21.length ∧ 1 ≤ 20 ∧
        2 < qAt (volumesOf barsSpike21) 20 /
          (winSum 20 (volumesOf barsSpike21) 20 / 20) ∧
        3 < |(qAt (closesOf barsSpike21) 20 - qAt (closesOf barsSpike21) 19) /
              qAt (closesOf barsSpike21) 19 * 100|) :=
  c5_anomaly_characterization barsSpike21 20
    (by with_unfolding_all decide) (by with_unfolding_all decide)

/-! ### Claim C2 — one timeframe's EmptySeries and the overall report -/

theorem csOk_iff (s : List RawItem) (l : Label) :
    csOk s l = true ↔ ∃ r, computeForSeries s l = .ok (some r) := by
  constructor
  · intro h
    unfold csOk at h
    rcases hc : computeForSeries s l with e | o
    · simp [hc] at h
    · rcases o with _ | r
      · simp [hc] at h
      · exact ⟨r, rfl⟩
  · rintro ⟨r, hr⟩
    unfold csOk
    rw [hr]

theorem addTf_none (acc : Except Unit (List (Label × TfResult))) (l : Label) :
    addTf acc l none = acc := by
  unfold addTf
  cases acc <;> rfl

theorem addTf_empty (acc : Except Unit (List (Label × TfResult))) (l : Label) :
    addTf acc l (some []) = acc := by
  unfold addTf
  cases acc <;> rfl

theorem addTf_ok (tfs : List (Label × TfResult)) (l : Label) (s : List RawItem)
    (r : TfResult) (h : computeForSeries s l = .ok (some r)) :
    addTf (.ok tfs) l (some s) = .ok (tfs ++ [(l, r)]) := by
  unfold addTf
  simp only [h]

/-- C2 (counterexample): a multi-timeframe input whose `day` series is
non-empty but normalizes to zero usable bars (its single record has a
non-positive price) aborts the whole request — the 60m timeframe, although
perfectly computable, is lost and the output is the error document, not a
report containing the 60m TimeframeResult. -/
theorem c2_counterexample :
    runMain (.obj (some [wBadItem]) (some [wItem 1 10 1]) none) = .errorDoc ∧
    csOk [wItem 1 10 1] .m60 = true := by
  exact ⟨by with_unfolding_all rfl, by with_unfolding_all rfl⟩

/-- C2 (amended): a timeframe supplied as an *empty* series is skipped
without aborting: every other supplied timeframe that computes successfully
still gets its TimeframeResult, the empty timeframe is merely absent as a
key, and the output is not an error document.  (When a non-empty series
normalizes to zero usable bars, however, the whole request yields the error
document — see the counterexample.) -/
theorem c2_empty_day_skipped (s60 s5 : Option (List RawItem))
    (h60 : ∀ s, s60 = some s → csOk s .m60 = true)
    (h5 : ∀ s, s5 = some s → csOk s .m5 = true) :
    docIsError (runMain (.obj (some []) s60 s5)) = false ∧
    docLabels (runMain (.obj (some []) s60 s5)) =
      (if s60.isSome then [Label.m60] else []) ++
        (if s5.isSome then [Label.m5] else []) := by
  cases s60 with
  | none =>
    cases s5 with
    | none =>
      have hchain : addTf (addTf (addTf (.ok []) .day (some [])) .m60 none) .m5 none
          = .ok ([] : List (Label × TfResult)) := by
        rw [addTf_empty, addTf_none, addTf_none]
      simp [runMain, hchain, docIsError, docLabels]
    | some s5v =>
      obtain ⟨r5, hr5⟩ := (csOk_iff _ .m5).mp (h5 _ rfl)
      have hchain : addTf (addTf (addTf (.ok []) .day (some [])) .m60 none)
          .m5 (some s5v) = .ok [(.m5, r5)] := by
        rw [addTf_empty, addTf_none, addTf_ok [] .m5 s5v r5 hr5]
        rfl
      simp [runMain, hchain, docIsError, docLabels]
  | some s60v =>
    obtain ⟨r60, hr60⟩ := (csOk_iff _ .m60).mp (h60 _ rfl)
    cases s5 with
    | none =>
      have hchain : addTf (addTf (addTf (.ok []) .day (some [])) .m60 (some s60v))
          .m5 none = .ok [(.m60, r60)] := by
        rw [addTf_empty, addTf_ok [] .m60 s60v r60 hr60, addTf_none]
        rfl
      simp [runMain, hchain, docIsError, docLabels]
    | some s5v =>
      obtain ⟨r5, hr5⟩ := (csOk_iff _ .m5).mp (h5 _ rfl)
      have hchain : addTf (addTf (addTf (.ok []) .day (some [])) .m60 (some s60v))
          .m5 (some s5v) = .ok [(.m60, r60), (.m5, r5)] := by
        rw [addTf_empty, addTf_ok [] .m60 s60v r60 hr60]
        simp only [List.nil_append]
        rw [addTf_ok [(.m60, r60)] .m5 s5v r5 hr5]
        rfl
      simp [runMain, hchain, docIsError, docLabels]

/-- Witness for `c2_empty_day_skipped`: a valid 60m series and no 5m
series; the report carries exactly the 60m key. -/
theorem c2_witness :
    docIsError (runMain (.obj (some []) (some [wItem 1 10 1]) none)) = false ∧
    docLabels (runMain (.obj (some []) (some [wItem 1 10 1]) none)) =
      (if (some [wItem 1 10 1]).isSome then [Label.m60] else []) ++
        (if (none : Option (List RawItem)).isSome then [Label.m5] else []) :=
  c2_empty_day_skipped (some [wItem 1 10 1]) none
    (fun s hs => by cases hs; with_unfolding_all rfl)
    (fun s hs => by cases hs)

end StockTA
